import Mathlib

/-!
Verification development for the mozmill-ci pulse-consumer core
(lib/queues.py).  The Python code is shallowly embedded: dictionaries
become association lists over a small value type, Python exceptions become
an explicit error type threaded through Except, and network calls become
explicit function parameters (an HTTP oracle).  Records passed to the
registered callback become Lean structures whose fields mirror the keyword
arguments of the source.
-/

namespace MozmillCI

/-! ### ASCII string helpers

Kernel-computable counterparts of the Python string methods used by the
source: str.lower, str.replace and str.endswith (ASCII range, which is the
only range the repository exercises). -/

/-- ASCII lowercasing of a single character, as Python str.lower does on
the ASCII range. -/
def lowerChar (c : Char) : Char :=
  if 'A' ≤ c ∧ c ≤ 'Z' then Char.ofNat (c.toNat + 32) else c

/-- ASCII lowercase of a string; embeds the .lower() calls of the source. -/
def strLower (s : String) : String := ⟨s.data.map lowerChar⟩

/-- Decidable list-prefix test on characters. -/
def isPrefixOfL : List Char → List Char → Bool
  | [], _ => true
  | _ :: _, [] => false
  | a :: as, b :: bs => a == b && isPrefixOfL as bs

/-- Worker for strReplace, structurally recursive on a fuel argument that
starts at the length of the string (each step consumes at least one
character). -/
def replaceAux (pat rep : List Char) : Nat → List Char → List Char
  | _, [] => []
  | 0, s => s
  | Nat.succ n, c :: cs =>
    if isPrefixOfL pat (c :: cs) then
      rep ++ replaceAux pat rep n (List.drop (pat.length - 1) cs)
    else
      c :: replaceAux pat rep n cs

/-- Replacement of every occurrence of a non-empty pattern, as Python
str.replace; embeds the replace call of the source (whose pattern is the
non-empty constant string for the release prefix). -/
def strReplace (s pat rep : String) : String :=
  if pat.data.isEmpty then s
  else ⟨replaceAux pat.data rep.data s.data.length s.data⟩

/-- Suffix test, as Python str.endswith. -/
def strEndsWith (s suf : String) : Bool :=
  isPrefixOfL suf.data.reverse s.data.reverse

/-! ### Values, dictionaries and Python exceptions -/

/-- Payload values delivered by the bus, restricted to the shapes the
embedded code paths read: strings, integers, lists of strings and None. -/
inductive Val where
  | vstr (s : String)
  | vint (n : Int)
  | vlist (xs : List String)
  | vnone
  deriving DecidableEq, Repr

/-- Python exceptions raised by the embedded code.  All of them derive
from Exception in the source, so they are all caught by a bare
except-Exception clause. -/
inductive PyErr where
  | keyError (k : String)
  | valueError (msg : String)
  | typeError
  | httpError (status : Nat)
  deriving DecidableEq, Repr

/-- A Python dict with string keys, as an insertion-ordered association
list. -/
abbrev Dict := List (String × Val)

/-- Lookup of a key, none when absent. -/
def dget? : Dict → String → Option Val
  | [], _ => none
  | (k1, v1) :: d, k => if k1 = k then some v1 else dget? d k

/-- Python subscript access: a missing key raises KeyError. -/
def dget (d : Dict) (k : String) : Except PyErr Val :=
  match dget? d k with
  | some v => Except.ok v
  | none => Except.error (PyErr.keyError k)

/-- Python dict.get with a default value. -/
def dgetD (d : Dict) (k : String) (dflt : Val) : Val :=
  match dget? d k with
  | some v => v
  | none => dflt

/-- Python key assignment: overwrite in place when the key exists,
append otherwise. -/
def dset : Dict → String → Val → Dict
  | [], k, v => [(k, v)]
  | (k1, v1) :: d, k, v => if k1 = k then (k1, v) :: d else (k1, v1) :: dset d k v

/-- Removal of a key, as the mutation performed by Python dict.pop. -/
def dpop : Dict → String → Dict
  | [], _ => []
  | (k1, v1) :: d, k => if k1 = k then d else (k1, v1) :: dpop d k

/-- Python membership test on dict keys. -/
def dmem (d : Dict) (k : String) : Bool :=
  (dget? d k).isSome

/-- Coercion of a value to a string where the source applies a string
method or uses it as a lookup key; any other shape raises. -/
def asStr : Val → Except PyErr String
  | Val.vstr s => Except.ok s
  | _ => Except.error PyErr.typeError

/-- Coercion of a value to a list of strings where the source iterates
over it; any other shape raises. -/
def asStrList : Val → Except PyErr (List String)
  | Val.vlist xs => Except.ok xs
  | _ => Except.error PyErr.typeError

/-! ### Policy store (pulse_config)

Embeds the policy document described by the configuration schema the
source reads: pulse_config is a mapping whose trees entry maps a tree name
to its products, platforms, locales, blacklisted locales and tags. -/

/-- Configuration entry of one tree in the policy document. -/
structure TreeConfig where
  products : List String
  platforms : List String
  locales : List String
  blacklist_locales : List String
  tags : List String
  deriving DecidableEq, Repr

/-- The loaded pulse_config policy document with its tree mapping. -/
structure PulseConfig where
  trees : List (String × TreeConfig)
  deriving DecidableEq, Repr

/-- Subscript access into the tree mapping, none when the tree key is
absent (the Python subscript would raise KeyError there). -/
def lookupTree (cfg : PulseConfig) (tree : String) : Option TreeConfig :=
  List.lookup tree cfg.trees

/-- PulseQueue.is_valid_locale: the whitelist and blacklist of the tree
entry are consulted; the subscript on an unknown tree raises KeyError. -/
def is_valid_locale (cfg : PulseConfig) (tree locale : String) : Except PyErr Bool :=
  match lookupTree cfg tree with
  | none => Except.error (PyErr.keyError tree)
  | some tc =>
      Except.ok (!tc.blacklist_locales.contains locale &&
        (tc.locales.isEmpty || tc.locales.contains locale))

/-- PulseQueue.is_valid_platform: empty platform list means wildcard. -/
def is_valid_platform (cfg : PulseConfig) (tree platform : String) : Except PyErr Bool :=
  match lookupTree cfg tree with
  | none => Except.error (PyErr.keyError tree)
  | some tc => Except.ok (tc.platforms.isEmpty || tc.platforms.contains platform)

/-- PulseQueue.is_valid_product: empty product list means wildcard. -/
def is_valid_product (cfg : PulseConfig) (tree product : String) : Except PyErr Bool :=
  match lookupTree cfg tree with
  | none => Except.error (PyErr.keyError tree)
  | some tc => Except.ok (tc.products.isEmpty || tc.products.contains product)

/-- PulseQueue.is_valid_tree: an empty tree mapping accepts every tree,
otherwise membership among the keys decides; this check is total. -/
def is_valid_tree (cfg : PulseConfig) (tree : String) : Bool :=
  let trees := cfg.trees.map Prod.fst
  trees.isEmpty || trees.contains tree

/-- PulseQueue.has_valid_tags: an empty required tag set accepts any
message, otherwise the required tags must all occur among the message
tags; the subscript on an unknown tree raises KeyError. -/
def has_valid_tags (cfg : PulseConfig) (tree : String) (tags : List String) :
    Except PyErr Bool :=
  match lookupTree cfg tree with
  | none => Except.error (PyErr.keyError tree)
  | some tc => Except.ok (tc.tags.isEmpty || tc.tags.all (fun t => tags.contains t))

/-! ### Revision resolver (get_long_revision) -/

/-- An HTTP GET request with its URL and timeout in seconds. -/
structure Request where
  url : String
  timeout : Nat
  deriving DecidableEq, Repr

/-- An HTTP response: a status code and the result of parsing the body as
JSON (an error when the body is malformed). -/
structure HttpResponse where
  status : Nat
  jsonBody : Except PyErr Dict

/-- The request issued by get_long_revision: every branch other than
mozilla-central is namespaced under releases/, and the timeout is 60
seconds. -/
def revisionRequest (repo revision : String) : Request :=
  let repo1 := if repo ≠ "mozilla-central" then "releases/" ++ repo else repo
  { url := "https://hg.mozilla.org/" ++ repo1 ++ "/json-rev/" ++ revision
    timeout := 60 }

/-- requests.Response.raise_for_status: raises on client and server error
status codes. -/
def raise_for_status (resp : HttpResponse) : Except PyErr Unit :=
  if 400 ≤ resp.status then Except.error (PyErr.httpError resp.status)
  else Except.ok ()

/-- get_long_revision over an HTTP oracle: issue the request, raise on a
non-success status, parse the JSON body, and return its node field.  No
exception is caught here, so every failure propagates to the caller. -/
def get_long_revision (http : Request → HttpResponse) (repo revision : String) :
    Except PyErr Val := do
  let resp := http (revisionRequest repo revision)
  raise_for_status resp
  let j ← resp.jsonBody
  dget j "node"

/-! ### Build-Completed normalizer (NormalizedBuildQueue._on_message) -/

/-- The canonical record emitted for a Build-Completed message; its fields
mirror the keyword arguments of the build_properties callback call. -/
structure BuildRecord where
  allowed_testruns : List String
  branch : String
  buildid : Val
  build_number : Val
  build_url : Val
  locale : String
  platform : String
  product : String
  repository : Val
  revision : Val
  status : Val
  tags : List String
  test_packages_url : Val
  tree : String
  version : Val
  raw_json : Dict
  deriving DecidableEq, Repr

/-- NormalizedBuildQueue._on_message up to the callback call: the
validation chain raises ValueError on the first failing check, the payload
dict is mutated in place with the derived branch and repo entries, the
short revision is resolved through get_long_revision, and the record is
built (with build_url nulled for every locale other than en-US and the
mutated payload stored as raw_json). -/
def normalizedBuildOnMessage (cfg : PulseConfig) (http : Request → HttpResponse)
    (data : Dict) : Except PyErr BuildRecord := do
  let tree ← asStr (← dget data "tree")
  if ! is_valid_tree cfg tree then
    throw (PyErr.valueError ("Cancel build request due to invalid tree: " ++ tree))
  let product ← asStr (← dget data "product")
  if ! (← is_valid_product cfg tree (strLower product)) then
    throw (PyErr.valueError ("Cancel build request due to invalid product: " ++
      strLower product))
  let platform ← asStr (← dget data "platform")
  if ! (← is_valid_platform cfg tree platform) then
    throw (PyErr.valueError ("Cancel build request due to invalid platform: " ++
      platform))
  let tags ← asStrList (← dget data "tags")
  if ! (← has_valid_tags cfg tree tags) then
    throw (PyErr.valueError "Cancel build request due to invalid tags")
  let locale ← asStr (← dget data "locale")
  if ! (← is_valid_locale cfg tree locale) then
    throw (PyErr.valueError ("Cancel build request due to invalid locale: " ++ locale))
  let branch := strReplace tree "release-" ""
  let data := dset data "branch" (Val.vstr branch)
  let repo := "http://hg.mozilla.org/" ++
    (if strEndsWith tree "-central" then "" else "releases/") ++ branch
  let data := dset data "repo" (Val.vstr repo)
  let buildid ← dget data "buildid"
  let build_number := dgetD data "build_number" Val.vnone
  let build_url ← if locale = "en-US" then dget data "buildurl" else pure Val.vnone
  let repository ← dget data "repo"
  let revision ← asStr (← dget data "revision")
  let longrev ← get_long_revision http tree revision
  let status ← dget data "status"
  let test_packages_url ← dget data "test_packages_url"
  let version ← dget data "version"
  pure { allowed_testruns := ["functional"]
         branch := branch
         buildid := buildid
         build_number := build_number
         build_url := build_url
         locale := locale
         platform := platform
         product := strLower product
         repository := repository
         revision := longrev
         status := status
         tags := tags
         test_packages_url := test_packages_url
         tree := tree
         version := version
         raw_json := data }

/-- NormalizedBuildQueue._on_message as seen by the dispatcher: the list
of records passed to the callback (the single successful record) paired
with the exception escaping the normalizer, if any.  The callback is
invoked outside any try block of this normalizer, so an exception it
raises escapes the normalizer. -/
def buildOnMessage (cfg : PulseConfig) (http : Request → HttpResponse)
    (cb : BuildRecord → Option PyErr) (data : Dict) :
    List BuildRecord × Option PyErr :=
  match normalizedBuildOnMessage cfg http data with
  | Except.error e => ([], some e)
  | Except.ok r => ([r], cb r)

/-! ### Update-Available normalizer (FunsizeTaskCompletedQueue._on_message) -/

/-- The canonical record emitted per update element; its fields mirror the
keyword arguments of the update_properties callback call. -/
structure UpdateRecord where
  allowed_testruns : List String
  branch : String
  buildid : Val
  locale : String
  platform : String
  product : String
  repository : Val
  revision : Val
  target_buildid : Val
  target_version : Val
  tree : String
  update_number : Val
  raw_json : Dict
  deriving DecidableEq, Repr

/-- Validation and record construction for one update element of the
funsize payload, up to the callback call.  The update dict is never
mutated, and it is stored verbatim as raw_json. -/
def funsizeUpdateE (cfg : PulseConfig) (update : Dict) : Except PyErr UpdateRecord := do
  let tree ← asStr (← dget update "branch")
  if ! is_valid_tree cfg tree then
    throw (PyErr.valueError ("Cancel update request due to invalid tree: " ++ tree))
  let appName ← asStr (← dget update "appName")
  if ! (← is_valid_product cfg tree (strLower appName)) then
    throw (PyErr.valueError ("Cancel update request due to invalid product: " ++
      strLower appName))
  let platform ← asStr (← dget update "platform")
  if ! (← is_valid_platform cfg tree platform) then
    throw (PyErr.valueError ("Cancel update request due to invalid platform: " ++
      platform))
  let locale ← asStr (← dget update "locale")
  if ! (← is_valid_locale cfg tree locale) then
    throw (PyErr.valueError ("Cancel update request due to invalid locale: " ++ locale))
  let buildid ← dget update "from_buildid"
  let repository ← dget update "repo"
  let revision ← dget update "revision"
  let target_buildid ← dget update "to_buildid"
  let target_version ← dget update "version"
  let update_number ← dget update "update_number"
  pure { allowed_testruns := ["update"]
         branch := tree
         buildid := buildid
         locale := locale
         platform := platform
         product := strLower appName
         repository := repository
         revision := revision
         target_buildid := target_buildid
         target_version := target_version
         tree := tree
         update_number := update_number
         raw_json := update }

/-- The funsize payload is either a single update dict (the push-update
case) or a list of update dicts. -/
inductive FunsizeData where
  | dict (u : Dict)
  | list (us : List Dict)
  deriving DecidableEq, Repr

/-- FunsizeTaskCompletedQueue._on_message: a single dict payload is
wrapped as a one-element list, then every element is processed inside its
own try block whose except clauses catch ValueError and every other
Exception, so neither a failed validation nor a raised callback ever
escapes the loop. -/
def funsizeOnMessage (cfg : PulseConfig) (cb : UpdateRecord → Option PyErr)
    (data : FunsizeData) : List UpdateRecord × Option PyErr :=
  let updates := match data with
    | FunsizeData.dict u => [u]
    | FunsizeData.list us => us
  (updates.foldl (fun acc u =>
    match funsizeUpdateE cfg u with
    | Except.ok r =>
        let _cbResult := cb r
        acc ++ [r]
    | Except.error _ => acc) [], none)

/-! ### Release-Artifact-Completed normalizer
(ReleaseTaskCompletedQueue._on_message) -/

/-- The canonical record emitted per release locale; its fields mirror the
keyword arguments of the build_properties callback call of the release
queue (note that product is stored unlowercased there). -/
structure ReleaseRecord where
  allowed_testruns : List String
  branch : Val
  buildid : Val
  locale : String
  platform : Val
  product : Val
  revision : Val
  tree : String
  version : Val
  raw_json : Dict
  deriving DecidableEq, Repr

/-- The tree, product and platform checks at the top of
ReleaseTaskCompletedQueue._on_message; any failure raises out of the
normalizer. -/
def releaseChecks (cfg : PulseConfig) (data : Dict) : Except PyErr String := do
  let tree ← asStr (← dget data "tree")
  if ! is_valid_tree cfg tree then
    throw (PyErr.valueError ("Cancel build request due to invalid tree: " ++ tree))
  let product ← asStr (← dget data "product")
  if ! (← is_valid_product cfg tree (strLower product)) then
    throw (PyErr.valueError ("Cancel build request due to invalid product: " ++
      strLower product))
  let platform ← asStr (← dget data "platform")
  if ! (← is_valid_platform cfg tree platform) then
    throw (PyErr.valueError ("Cancel build request due to invalid platform: " ++
      platform))
  pure tree

/-- The body of the local _handle_locale closure up to the callback call:
locale validation then record construction, reading the current state of
the payload dict, which is stored as raw_json. -/
def handle_localeE (cfg : PulseConfig) (tree : String) (data : Dict) (locale : Val) :
    Except PyErr ReleaseRecord := do
  let loc ← asStr locale
  if ! (← is_valid_locale cfg tree loc) then
    throw (PyErr.valueError ("Cancel build request due to invalid locale: " ++ loc))
  let branch ← dget data "branch"
  let buildid ← dget data "buildid"
  let platform ← dget data "platform"
  let product ← dget data "product"
  let revision ← dget data "revision"
  let version ← dget data "version"
  pure { allowed_testruns := ["functional"]
         branch := branch
         buildid := buildid
         locale := loc
         platform := platform
         product := product
         revision := revision
         tree := tree
         version := version
         raw_json := data }

/-- The _handle_locale closure as a whole: its try block catches
ValueError and every other Exception, so a failing element (or a raising
callback) yields no record and no escaping exception. -/
def handle_locale (cfg : PulseConfig) (cb : ReleaseRecord → Option PyErr)
    (tree : String) (data : Dict) (locale : Val) : List ReleaseRecord :=
  match handle_localeE cfg tree data locale with
  | Except.ok r =>
      let _cbResult := cb r
      [r]
  | Except.error _ => []

/-- ReleaseTaskCompletedQueue._on_message: after the tree, product and
platform checks, either the single locale entry is handled, or the locales
entry is popped from the payload and each locale is handled in turn after
being written into the payload dict as the locale entry. -/
def releaseOnMessage (cfg : PulseConfig) (cb : ReleaseRecord → Option PyErr)
    (data : Dict) : List ReleaseRecord × Option PyErr :=
  match releaseChecks cfg data with
  | Except.error e => ([], some e)
  | Except.ok tree =>
    if dmem data "locale" then
      match dget data "locale" with
      | Except.error e => ([], some e)
      | Except.ok lv => (handle_locale cfg cb tree data lv, none)
    else
      let locsV := dgetD data "locales" (Val.vlist [])
      let data1 := dpop data "locales"
      match asStrList locsV with
      | Except.error e => ([], some e)
      | Except.ok locs =>
        let res := locs.foldl (fun (acc : List ReleaseRecord × Dict) loc =>
          let d := dset acc.2 "locale" (Val.vstr loc)
          (acc.1 ++ handle_locale cfg cb tree d (Val.vstr loc), d)) ([], data1)
        (res.1, none)

/-! ### Queue dispatcher (PulseQueue.process_message) -/

/-- Observable outcome of one process_message invocation: the records that
reached the callback, the number of acknowledgements sent on the bus, the
exception caught and logged (if any), and the exception escaping to the
owner of the dispatcher loop (if any). -/
structure ProcessResult (ρ : Type) where
  records : List ρ
  acks : Nat
  logged : Option PyErr
  escaped : Option PyErr
  deriving Repr

/-- The two except clauses of process_message: ValueError is caught and
logged at debug level, every other Exception is caught and logged with a
traceback.  The result pairs the logged exception with the exception the
clauses let escape (none in both arms, since every PyErr derives from
Exception). -/
def catchClauses : Option PyErr → Option PyErr × Option PyErr
  | none => (none, none)
  | some (PyErr.valueError m) => (some (PyErr.valueError m), none)
  | some e => (some e, none)

/-- PulseQueue.process_message over the outcome of the preprocessing stage
and the per-family message handler: the try block runs both stages, the
except clauses catch as described by catchClauses, and the finally block
acknowledges the message exactly once whenever a transport message object
is present. -/
def process_message {α ρ : Type} (hasMessage : Bool) (pre : Except PyErr α)
    (onMsg : α → List ρ × Option PyErr) : ProcessResult ρ :=
  let handled : List ρ × Option PyErr :=
    match pre with
    | Except.error e => ([], some e)
    | Except.ok a => onMsg a
  let caught := catchClauses handled.2
  { records := handled.1
    acks := if hasMessage then 1 else 0
    logged := caught.1
    escaped := caught.2 }

/-! ### Concrete fixtures

Closed inputs used by the witness and counterexample theorems below. -/

/-- A policy document with an empty tree mapping (accept-all-trees
mode). -/
def cfgEmpty : PulseConfig := { trees := [] }

/-- A policy document covering mozilla-central with every per-tree set
left empty (wildcards). -/
def cfg1 : PulseConfig :=
  { trees := [("mozilla-central",
      { products := [], platforms := [], locales := [],
        blacklist_locales := [], tags := [] })] }

/-- A policy document covering release-mozilla-beta whose allowed locale
set contains only en-US. -/
def relCfg : PulseConfig :=
  { trees := [("release-mozilla-beta",
      { products := [], platforms := [], locales := ["en-US"],
        blacklist_locales := [], tags := [] })] }

/-- An HTTP oracle that answers every request with status 200 and the
JSON object carrying a node field. -/
def httpOk : Request → HttpResponse :=
  fun _ => { status := 200, jsonBody := Except.ok [("node", Val.vstr "abc123full")] }

/-- An HTTP oracle that answers every request with a server error and a
malformed body. -/
def httpErr : Request → HttpResponse :=
  fun _ => { status := 404, jsonBody := Except.error PyErr.typeError }

/-- A well-formed Build-Completed payload for mozilla-central with the
reference locale; it carries neither a branch nor a repo entry. -/
def payload1 : Dict :=
  [("tree", Val.vstr "mozilla-central"), ("product", Val.vstr "Firefox"),
   ("platform", Val.vstr "linux64"), ("tags", Val.vlist []),
   ("locale", Val.vstr "en-US"), ("buildid", Val.vstr "20170101"),
   ("buildurl", Val.vstr "http://x/build"), ("revision", Val.vstr "abc123"),
   ("status", Val.vint 0), ("test_packages_url", Val.vstr "http://x/tp"),
   ("version", Val.vstr "55.0")]

/-- The same Build-Completed payload with the locale entry set to de. -/
def payloadDe : Dict := dset payload1 "locale" (Val.vstr "de")

/-- A well-formed funsize update element for mozilla-central. -/
def upd1 : Dict :=
  [("branch", Val.vstr "mozilla-central"), ("appName", Val.vstr "Firefox"),
   ("platform", Val.vstr "linux64"), ("locale", Val.vstr "en-US"),
   ("from_buildid", Val.vstr "20170101"), ("repo", Val.vstr "http://hg/mc"),
   ("revision", Val.vstr "deadbeef"), ("to_buildid", Val.vstr "20170102"),
   ("version", Val.vstr "55.0"), ("update_number", Val.vint 1)]

/-- A well-formed Release-Artifact-Completed payload whose locales list
carries one locale allowed by relCfg and one that is not. -/
def relData1 : Dict :=
  [("tree", Val.vstr "release-mozilla-beta"), ("product", Val.vstr "Firefox"),
   ("platform", Val.vstr "win64"), ("locales", Val.vlist ["en-US", "xx-INVALID"]),
   ("branch", Val.vstr "mozilla-beta"), ("buildid", Val.vstr "201701"),
   ("revision", Val.vstr "beefcafe"), ("version", Val.vstr "55.0b3")]

/-- The same release payload with the locales entry removed, so that it
carries neither a locale nor a locales entry. -/
def relData2 : Dict := dpop relData1 "locales"

/-- The canonical record that funsizeUpdateE produces for upd1 under
cfg1. -/
def updRec1 : UpdateRecord :=
  { allowed_testruns := ["update"]
    branch := "mozilla-central"
    buildid := Val.vstr "20170101"
    locale := "en-US"
    platform := "linux64"
    product := "firefox"
    repository := Val.vstr "http://hg/mc"
    revision := Val.vstr "deadbeef"
    target_buildid := Val.vstr "20170102"
    target_version := Val.vstr "55.0"
    tree := "mozilla-central"
    update_number := Val.vint 1
    raw_json := upd1 }

instance {ε α : Type} [DecidableEq ε] [DecidableEq α] : DecidableEq (Except ε α) :=
  fun a b =>
    match a, b with
    | Except.error x, Except.error y => decidable_of_iff (x = y) (by simp)
    | Except.error _, Except.ok _ => isFalse (by simp)
    | Except.ok _, Except.error _ => isFalse (by simp)
    | Except.ok x, Except.ok y => decidable_of_iff (x = y) (by simp)

/-! ### Dictionary lemmas -/

theorem dget?_dset_self (d : Dict) (k : String) (v : Val) :
    dget? (dset d k v) k = some v := by
  induction d with
  | nil => simp [dset, dget?]
  | cons hd tl ih =>
    obtain ⟨k1, v1⟩ := hd
    by_cases h : k1 = k <;> simp [dset, dget?, h, ih]

theorem dget?_dset_ne (d : Dict) (k k1 : String) (v : Val) (h : k1 ≠ k) :
    dget? (dset d k v) k1 = dget? d k1 := by
  have hk : k ≠ k1 := Ne.symm h
  induction d with
  | nil => simp [dset, dget?, hk]
  | cons hd tl ih =>
    obtain ⟨k2, v2⟩ := hd
    by_cases h2 : k2 = k
    · simp [dset, dget?, h2, hk]
    · by_cases h3 : k2 = k1
      · simp [dset, dget?, h, h2, h3]
      · simp [dset, dget?, h2, h3, ih]

theorem dget?_dpop_ne (d : Dict) (k k1 : String) (h : k1 ≠ k) :
    dget? (dpop d k) k1 = dget? d k1 := by
  have hk : k ≠ k1 := Ne.symm h
  induction d with
  | nil => simp [dpop]
  | cons hd tl ih =>
    obtain ⟨k2, v2⟩ := hd
    by_cases h2 : k2 = k
    · simp [dpop, dget?, h2, hk]
    · by_cases h3 : k2 = k1
      · simp [dpop, dget?, h, h2, h3]
      · simp [dpop, dget?, h2, h3, ih]

theorem dget_eq_ok (d : Dict) (k : String) (v : Val) (h : dget? d k = some v) :
    dget d k = Except.ok v := by
  simp [dget, h]

theorem dget_eq_err (d : Dict) (k : String) (h : dget? d k = none) :
    dget d k = Except.error (PyErr.keyError k) := by
  simp [dget, h]

theorem dgetD_congr (d1 d2 : Dict) (k : String) (dflt : Val)
    (h : dget? d1 k = dget? d2 k) : dgetD d1 k dflt = dgetD d2 k dflt := by
  simp [dgetD, h]

/-! ### Dispatcher lemmas -/

theorem catchClauses_snd (o : Option PyErr) : (catchClauses o).2 = none := by
  match o with
  | none => rfl
  | some (PyErr.keyError k) => rfl
  | some (PyErr.valueError m) => rfl
  | some PyErr.typeError => rfl
  | some (PyErr.httpError s) => rfl

theorem catchClauses_fst (o : Option PyErr) : (catchClauses o).1 = o := by
  match o with
  | none => rfl
  | some (PyErr.keyError k) => rfl
  | some (PyErr.valueError m) => rfl
  | some PyErr.typeError => rfl
  | some (PyErr.httpError s) => rfl

theorem process_message_escaped {α ρ : Type} (hm : Bool) (pre : Except PyErr α)
    (onMsg : α → List ρ × Option PyErr) :
    (process_message hm pre onMsg).escaped = none := by
  unfold process_message
  exact catchClauses_snd _

theorem process_message_acks {α ρ : Type} (pre : Except PyErr α)
    (onMsg : α → List ρ × Option PyErr) :
    (process_message true pre onMsg).acks = 1 := rfl

theorem process_message_records_err {α ρ : Type} (hm : Bool) (e : PyErr)
    (onMsg : α → List ρ × Option PyErr) :
    (process_message hm (Except.error e) onMsg).records = [] := rfl

theorem process_message_logged_err {α ρ : Type} (hm : Bool) (e : PyErr)
    (onMsg : α → List ρ × Option PyErr) :
    (process_message hm (Except.error e) onMsg).logged = some e := by
  unfold process_message
  exact catchClauses_fst _

theorem process_message_records_ok {α ρ : Type} (hm : Bool) (a : α)
    (onMsg : α → List ρ × Option PyErr) :
    (process_message hm (Except.ok a) onMsg).records = (onMsg a).1 := rfl

theorem process_message_logged_ok {α ρ : Type} (hm : Bool) (a : α)
    (onMsg : α → List ρ × Option PyErr) :
    (process_message hm (Except.ok a) onMsg).logged = (onMsg a).2 := by
  unfold process_message
  exact catchClauses_fst _

/-! ### Normalizer-level lemmas -/

theorem funsizeOnMessage_snd (cfg : PulseConfig) (cb : UpdateRecord → Option PyErr)
    (d : FunsizeData) : (funsizeOnMessage cfg cb d).2 = none := rfl

theorem buildOnMessage_err (cfg : PulseConfig) (http : Request → HttpResponse)
    (cb : BuildRecord → Option PyErr) (data : Dict) (e : PyErr)
    (h : normalizedBuildOnMessage cfg http data = Except.error e) :
    buildOnMessage cfg http cb data = ([], some e) := by
  simp [buildOnMessage, h]

theorem buildOnMessage_ok (cfg : PulseConfig) (http : Request → HttpResponse)
    (cb : BuildRecord → Option PyErr) (data : Dict) (r : BuildRecord)
    (h : normalizedBuildOnMessage cfg http data = Except.ok r) :
    buildOnMessage cfg http cb data = ([r], cb r) := by
  simp [buildOnMessage, h]

theorem releaseOnMessage_snd_some (cfg : PulseConfig)
    (cb : ReleaseRecord → Option PyErr) (data : Dict) (e : PyErr)
    (h : (releaseOnMessage cfg cb data).2 = some e) :
    (releaseOnMessage cfg cb data).1 = [] := by
  unfold releaseOnMessage at h ⊢
  cases hc : releaseChecks cfg data with
  | error e2 => simp [hc]
  | ok tree =>
    simp only [hc] at h ⊢
    by_cases hm : dmem data "locale"
    · simp only [hm, if_true] at h ⊢
      cases hg : dget data "locale" with
      | error e2 => simp [hg]
      | ok lv => simp [hg] at h
    · simp only [hm, if_false, Bool.false_eq_true] at h ⊢
      cases hs : asStrList (dgetD data "locales" (Val.vlist [])) with
      | error e2 => simp [hs]
      | ok locs => simp [hs] at h

theorem funsizeUpdateE_raw_json (cfg : PulseConfig) (u : Dict) (r : UpdateRecord)
    (h : funsizeUpdateE cfg u = Except.ok r) : r.raw_json = u := by
  simp only [funsizeUpdateE, bind, Except.bind, pure, Except.pure, throw, throwThe,
    MonadExceptOf.throw] at h
  repeat' split at h
  all_goals simp_all
  rw [← h]

theorem handle_localeE_raw_json (cfg : PulseConfig) (tree : String) (data : Dict)
    (l : Val) (r : ReleaseRecord)
    (h : handle_localeE cfg tree data l = Except.ok r) : r.raw_json = data := by
  simp only [handle_localeE, bind, Except.bind, pure, Except.pure, throw, throwThe,
    MonadExceptOf.throw] at h
  repeat' split at h
  all_goals simp_all
  rw [← h]

set_option maxHeartbeats 1600000 in
theorem normalizedBuildOnMessage_raw_json (cfg : PulseConfig)
    (http : Request → HttpResponse) (data : Dict) (r : BuildRecord)
    (h : normalizedBuildOnMessage cfg http data = Except.ok r) :
    ∀ k, k ≠ "branch" → k ≠ "repo" → dget? r.raw_json k = dget? data k := by
  intro k hk1 hk2
  simp only [normalizedBuildOnMessage, bind, Except.bind, pure, Except.pure, throw, throwThe,
    MonadExceptOf.throw] at h
  repeat' split at h
  all_goals simp_all
  all_goals rw [← h, dget?_dset_ne _ _ _ _ hk2, dget?_dset_ne _ _ _ _ hk1]

theorem handle_locale_mem (cfg : PulseConfig) (cb : ReleaseRecord → Option PyErr)
    (tree : String) (data : Dict) (l : Val) (r : ReleaseRecord)
    (h : r ∈ handle_locale cfg cb tree data l) :
    handle_localeE cfg tree data l = Except.ok r := by
  unfold handle_locale at h
  cases he : handle_localeE cfg tree data l with
  | ok r2 =>
    rw [he] at h
    simp at h
    rw [h]
  | error e =>
    rw [he] at h
    simp at h

set_option maxHeartbeats 1600000 in
theorem nbom_compute (cfg : PulseConfig) (http : Request → HttpResponse) (data : Dict)
    (tree product platform l : String) (tagsL : List String)
    (vbid vburl vstatus vtpu vversion vlong : Val) (revS : String)
    (htree : dget? data "tree" = some (Val.vstr tree))
    (hvt : is_valid_tree cfg tree = true)
    (hprod : dget? data "product" = some (Val.vstr product))
    (hvp : is_valid_product cfg tree (strLower product) = Except.ok true)
    (hplat : dget? data "platform" = some (Val.vstr platform))
    (hvpl : is_valid_platform cfg tree platform = Except.ok true)
    (htags : dget? data "tags" = some (Val.vlist tagsL))
    (hvtg : has_valid_tags cfg tree tagsL = Except.ok true)
    (hvloc : is_valid_locale cfg tree l = Except.ok true)
    (hbid : dget? data "buildid" = some vbid)
    (hburl : dget? data "buildurl" = some vburl)
    (hrev : dget? data "revision" = some (Val.vstr revS))
    (hres : get_long_revision http tree revS = Except.ok vlong)
    (hstatus : dget? data "status" = some vstatus)
    (htpu : dget? data "test_packages_url" = some vtpu)
    (hver : dget? data "version" = some vversion) :
    normalizedBuildOnMessage cfg http (dset data "locale" (Val.vstr l)) = Except.ok
      { allowed_testruns := ["functional"]
        branch := strReplace tree "release-" ""
        buildid := vbid
        build_number := dgetD data "build_number" Val.vnone
        build_url := if l = "en-US" then vburl else Val.vnone
        locale := l
        platform := platform
        product := strLower product
        repository := Val.vstr ("http://hg.mozilla.org/" ++
          (if strEndsWith tree "-central" then "" else "releases/") ++
          strReplace tree "release-" "")
        revision := vlong
        status := vstatus
        tags := tagsL
        test_packages_url := vtpu
        tree := tree
        version := vversion
        raw_json := dset (dset (dset data "locale" (Val.vstr l)) "branch"
          (Val.vstr (strReplace tree "release-" ""))) "repo"
          (Val.vstr ("http://hg.mozilla.org/" ++
            (if strEndsWith tree "-central" then "" else "releases/") ++
            strReplace tree "release-" "")) } := by
  by_cases hl : l = "en-US"
  · subst hl
    simp +decide only [normalizedBuildOnMessage, bind, Except.bind, pure, Except.pure,
      throw, throwThe, MonadExceptOf.throw, dget, dgetD, dget?_dset_ne, dget?_dset_self,
      htree, hprod, hplat, htags, hbid, hburl, hrev, hstatus, htpu, hver,
      asStr, asStrList, hvt, hvp, hvpl, hvtg, hvloc, hres,
      Bool.not_true, Bool.false_eq_true, if_false, if_true, ite_true, ite_false]
  · simp +decide only [normalizedBuildOnMessage, bind, Except.bind, pure, Except.pure,
      throw, throwThe, MonadExceptOf.throw, dget, dgetD, dget?_dset_ne, dget?_dset_self,
      htree, hprod, hplat, htags, hbid, hburl, hrev, hstatus, htpu, hver,
      asStr, asStrList, hvt, hvp, hvpl, hvtg, hvloc, hres, hl,
      Bool.not_true, Bool.false_eq_true, if_false, if_true, ite_true, ite_false]

theorem release_fold_raw (cfg : PulseConfig) (cb : ReleaseRecord → Option PyErr)
    (tree : String) (data0 : Dict) (locs : List String) :
    ∀ (acc : List ReleaseRecord) (d : Dict),
    (∀ k, k ≠ "locale" → k ≠ "locales" → dget? d k = dget? data0 k) →
    (∀ r ∈ acc, ∀ k, k ≠ "locale" → k ≠ "locales" → dget? r.raw_json k = dget? data0 k) →
    ∀ r ∈ (locs.foldl (fun (acc : List ReleaseRecord × Dict) loc =>
        let d := dset acc.2 "locale" (Val.vstr loc)
        (acc.1 ++ handle_locale cfg cb tree d (Val.vstr loc), d)) (acc, d)).1,
    ∀ k, k ≠ "locale" → k ≠ "locales" → dget? r.raw_json k = dget? data0 k := by
  induction locs with
  | nil =>
    intro acc d hd hacc r hr k h1 h2
    exact hacc r (by simpa using hr) k h1 h2
  | cons loc rest ih =>
    intro acc d hd hacc r hr k h1 h2
    rw [List.foldl_cons] at hr
    dsimp only at hr
    refine ih (acc ++ handle_locale cfg cb tree (dset d "locale" (Val.vstr loc)) (Val.vstr loc))
      (dset d "locale" (Val.vstr loc)) ?_ ?_ r hr k h1 h2
    · intro k2 hk1 hk2
      rw [dget?_dset_ne _ _ _ _ hk1]
      exact hd k2 hk1 hk2
    · intro r2 hr2 k2 hk1 hk2
      rcases List.mem_append.mp hr2 with hmem | hmem
      · exact hacc r2 hmem k2 hk1 hk2
      · have he := handle_locale_mem _ _ _ _ _ _ hmem
        rw [handle_localeE_raw_json _ _ _ _ _ he, dget?_dset_ne _ _ _ _ hk1]
        exact hd k2 hk1 hk2

theorem build_raise_no_records (cfg : PulseConfig) (http : Request → HttpResponse)
    (cb : BuildRecord → Option PyErr) (data : Dict) (e : PyErr)
    (hcb : ∀ r, cb r = none)
    (h : (buildOnMessage cfg http cb data).2 = some e) :
    (buildOnMessage cfg http cb data).1 = [] := by
  unfold buildOnMessage at h ⊢
  cases hn : normalizedBuildOnMessage cfg http data with
  | error e2 => simp [hn]
  | ok r =>
    rw [hn] at h
    simp [hcb r] at h

/-! ### Claim theorems -/

/-- C1 (corrected): as stated, the claim fails — for a tree key not
present in the tree mapping, is_valid_product raises KeyError instead of
returning false.  This theorem exhibits the failure at a concrete input:
with an empty tree mapping, is_valid_tree accepts mozilla-central
(wildcard), yet every per-tree check raises KeyError there rather than
returning false. -/
theorem C1_counterexample :
    lookupTree cfgEmpty "mozilla-central" = none ∧
    is_valid_tree cfgEmpty "mozilla-central" = true ∧
    is_valid_product cfgEmpty "mozilla-central" "firefox" =
      Except.error (PyErr.keyError "mozilla-central") ∧
    is_valid_product cfgEmpty "mozilla-central" "firefox" ≠ Except.ok false ∧
    is_valid_platform cfgEmpty "mozilla-central" "linux64" ≠ Except.ok false ∧
    is_valid_locale cfgEmpty "mozilla-central" "en-US" ≠ Except.ok false ∧
    has_valid_tags cfgEmpty "mozilla-central" [] ≠ Except.ok false := by
  refine ⟨rfl, rfl, rfl, ?_, ?_, ?_, ?_⟩ <;> decide

/-- C1 (amended): for every loaded policy and every tree key not present
in the tree mapping, is_valid_product, is_valid_platform, is_valid_locale
and has_valid_tags raise KeyError (modelled as an error value) rather than
returning false; only is_valid_tree is total, and it keeps the wildcard
accept-all semantics for an empty tree set. -/
theorem C1_unknown_tree_raises (cfg : PulseConfig)
    (tree product platform locale : String) (tags : List String)
    (h : lookupTree cfg tree = none) :
    is_valid_product cfg tree product = Except.error (PyErr.keyError tree) ∧
    is_valid_platform cfg tree platform = Except.error (PyErr.keyError tree) ∧
    is_valid_locale cfg tree locale = Except.error (PyErr.keyError tree) ∧
    has_valid_tags cfg tree tags = Except.error (PyErr.keyError tree) ∧
    (cfg.trees = [] → is_valid_tree cfg tree = true) := by
  refine ⟨?_, ?_, ?_, ?_, ?_⟩
  · simp [is_valid_product, h]
  · simp [is_valid_platform, h]
  · simp [is_valid_locale, h]
  · simp [has_valid_tags, h]
  · intro h2
    simp [is_valid_tree, h2]

/-- Witness for C1_unknown_tree_raises at a concrete unknown tree. -/
theorem C1_unknown_tree_raises_witness :
    is_valid_product cfgEmpty "foo" "firefox" = Except.error (PyErr.keyError "foo") ∧
    is_valid_platform cfgEmpty "foo" "linux64" = Except.error (PyErr.keyError "foo") ∧
    is_valid_locale cfgEmpty "foo" "en-US" = Except.error (PyErr.keyError "foo") ∧
    has_valid_tags cfgEmpty "foo" [] = Except.error (PyErr.keyError "foo") ∧
    is_valid_tree cfgEmpty "foo" = true := by
  have h := C1_unknown_tree_raises cfgEmpty "foo" "firefox" "linux64" "en-US" [] rfl
  exact ⟨h.1, h.2.1, h.2.2.1, h.2.2.2.1, h.2.2.2.2 rfl⟩

/-- C2 (confirmed): for every delivered message with a non-null transport
message object, process_message acknowledges exactly once on every control
path of every family, never lets a raised condition escape to the bus
client, and a raised condition (a logged exception) implies zero emitted
records, given a callback that honours its must-not-raise contract. -/
theorem C2_ack_once_catch_all (cfg : PulseConfig) (http : Request → HttpResponse)
    (cbB : BuildRecord → Option PyErr) (cbF : UpdateRecord → Option PyErr)
    (cbR : ReleaseRecord → Option PyErr)
    (preB : Except PyErr Dict) (preF : Except PyErr FunsizeData)
    (preR : Except PyErr Dict)
    (hcb : ∀ r, cbB r = none) :
    ((process_message true preB (buildOnMessage cfg http cbB)).acks = 1 ∧
      (process_message true preB (buildOnMessage cfg http cbB)).escaped = none ∧
      (∀ e, (process_message true preB (buildOnMessage cfg http cbB)).logged = some e →
        (process_message true preB (buildOnMessage cfg http cbB)).records = [])) ∧
    ((process_message true preF (funsizeOnMessage cfg cbF)).acks = 1 ∧
      (process_message true preF (funsizeOnMessage cfg cbF)).escaped = none ∧
      (∀ e, (process_message true preF (funsizeOnMessage cfg cbF)).logged = some e →
        (process_message true preF (funsizeOnMessage cfg cbF)).records = [])) ∧
    ((process_message true preR (releaseOnMessage cfg cbR)).acks = 1 ∧
      (process_message true preR (releaseOnMessage cfg cbR)).escaped = none ∧
      (∀ e, (process_message true preR (releaseOnMessage cfg cbR)).logged = some e →
        (process_message true preR (releaseOnMessage cfg cbR)).records = [])) := by
  refine ⟨⟨process_message_acks _ _, process_message_escaped _ _ _, ?_⟩,
    ⟨process_message_acks _ _, process_message_escaped _ _ _, ?_⟩,
    ⟨process_message_acks _ _, process_message_escaped _ _ _, ?_⟩⟩
  · intro e he
    cases preB with
    | error e2 => exact process_message_records_err _ _ _
    | ok a =>
      rw [process_message_logged_ok] at he
      rw [process_message_records_ok]
      exact build_raise_no_records cfg http cbB a e hcb he
  · intro e he
    cases preF with
    | error e2 => exact process_message_records_err _ _ _
    | ok a =>
      rw [process_message_logged_ok, funsizeOnMessage_snd] at he
      exact absurd he (by simp)
  · intro e he
    cases preR with
    | error e2 => exact process_message_records_err _ _ _
    | ok a =>
      rw [process_message_logged_ok] at he
      rw [process_message_records_ok]
      exact releaseOnMessage_snd_some cfg cbR a e he

/-- Witness for C2_ack_once_catch_all with a raising preprocessing
stage. -/
theorem C2_ack_once_catch_all_witness :
    (process_message true (Except.error (PyErr.keyError "payload"))
      (buildOnMessage cfg1 httpOk (fun _ => none))).acks = 1 ∧
    (process_message true (Except.error (PyErr.keyError "payload"))
      (buildOnMessage cfg1 httpOk (fun _ => none))).escaped = none ∧
    (process_message true (Except.error (PyErr.keyError "payload"))
      (buildOnMessage cfg1 httpOk (fun _ => none))).records = [] := by
  have h := C2_ack_once_catch_all cfg1 httpOk (fun _ => none) (fun _ => none)
    (fun _ => none) (Except.error (PyErr.keyError "payload"))
    (Except.error (PyErr.keyError "payload")) (Except.error (PyErr.keyError "payload"))
    (fun _ => rfl)
  exact ⟨h.1.1, h.1.2.1, h.1.2.2 (PyErr.keyError "payload") rfl⟩

/-- C3 (corrected): as stated, the claim fails — the Build normalizer
mutates the payload in place before storing it as raw_json, so the record
carries a repo entry the delivered payload never had. -/
theorem C3_counterexample :
    dmem payload1 "repo" = false ∧
    (normalizedBuildOnMessage cfg1 httpOk payload1).toOption.map
      (fun r => dmem r.raw_json "repo") = some true := ⟨rfl, rfl⟩

/-- C3 (amended): raw_json carries the originating payload after the
in-place normalization mutations and no others — the Update family stores
the update element verbatim; the Build family preserves every key except
branch and repo (which it adds or overwrites); the Release family
preserves every key except locales (popped) and locale (set per emitted
record). -/
theorem C3_raw_json_after_mutation (cfg : PulseConfig)
    (http : Request → HttpResponse) (cbR : ReleaseRecord → Option PyErr) :
    (∀ u r, funsizeUpdateE cfg u = Except.ok r → r.raw_json = u) ∧
    (∀ data r, normalizedBuildOnMessage cfg http data = Except.ok r →
      ∀ k, k ≠ "branch" → k ≠ "repo" → dget? r.raw_json k = dget? data k) ∧
    (∀ data r, r ∈ (releaseOnMessage cfg cbR data).1 →
      ∀ k, k ≠ "locale" → k ≠ "locales" → dget? r.raw_json k = dget? data k) := by
  refine ⟨funsizeUpdateE_raw_json cfg, normalizedBuildOnMessage_raw_json cfg http, ?_⟩
  intro data r hr k h1 h2
  unfold releaseOnMessage at hr
  cases hc : releaseChecks cfg data with
  | error e =>
    rw [hc] at hr
    simp at hr
  | ok tree =>
    rw [hc] at hr
    dsimp only at hr
    by_cases hm : dmem data "locale"
    · rw [if_pos hm] at hr
      cases hg : dget data "locale" with
      | error e =>
        rw [hg] at hr
        simp at hr
      | ok lv =>
        rw [hg] at hr
        dsimp only at hr
        have he := handle_locale_mem _ _ _ _ _ _ hr
        rw [handle_localeE_raw_json _ _ _ _ _ he]
    · rw [if_neg hm] at hr
      cases hs : asStrList (dgetD data "locales" (Val.vlist [])) with
      | error e =>
        rw [hs] at hr
        simp at hr
      | ok locs =>
        rw [hs] at hr
        dsimp only at hr
        refine release_fold_raw cfg cbR tree data locs [] (dpop data "locales")
          ?_ ?_ r hr k h1 h2
        · intro k2 hk1 hk2
          rw [dget?_dpop_ne _ _ _ hk2]
        · intro r2 hr2
          simp at hr2

/-- Witness for C3_raw_json_after_mutation on the funsize component. -/
theorem C3_raw_json_after_mutation_witness : updRec1.raw_json = upd1 :=
  (C3_raw_json_after_mutation cfg1 httpOk (fun _ => none)).1 upd1 updRec1 rfl

/-- C4 (corrected): as stated, the claim fails — a raising callback is
caught inside the Update normalizer (its per-element handler swallows it),
and in the Build family it is caught by process_message, so nothing
reaches the owner of the dispatcher loop. -/
theorem C4_counterexample :
    (funsizeOnMessage cfg1 (fun _ => some PyErr.typeError)
      (FunsizeData.dict upd1)).1.length = 1 ∧
    (funsizeOnMessage cfg1 (fun _ => some PyErr.typeError)
      (FunsizeData.dict upd1)).2 = none ∧
    (process_message true (Except.ok payload1)
      (buildOnMessage cfg1 httpOk (fun _ => some PyErr.typeError))).records.length = 1 ∧
    (process_message true (Except.ok payload1)
      (buildOnMessage cfg1 httpOk (fun _ => some PyErr.typeError))).logged =
        some PyErr.typeError ∧
    (process_message true (Except.ok payload1)
      (buildOnMessage cfg1 httpOk (fun _ => some PyErr.typeError))).escaped = none :=
  ⟨rfl, rfl, rfl, rfl, rfl⟩

/-- C4 (amended): an exception raised by the registered callback never
propagates to whatever owns the dispatcher loop — the Update normalizer
catches it per element (nothing ever escapes its loop), the Release
normalizer catches it per locale once its header checks pass, and in the
Build family it escapes the normalizer but is caught by
process_message. -/
theorem C4_callback_contained (cfg : PulseConfig) (http : Request → HttpResponse)
    (cbB : BuildRecord → Option PyErr) (cbF : UpdateRecord → Option PyErr)
    (cbR : ReleaseRecord → Option PyErr)
    (preB : Except PyErr Dict) (preF : Except PyErr FunsizeData)
    (preR : Except PyErr Dict) :
    (process_message true preB (buildOnMessage cfg http cbB)).escaped = none ∧
    (process_message true preF (funsizeOnMessage cfg cbF)).escaped = none ∧
    (process_message true preR (releaseOnMessage cfg cbR)).escaped = none ∧
    (∀ d, (funsizeOnMessage cfg cbF d).2 = none) ∧
    (∀ data tree lv, releaseChecks cfg data = Except.ok tree →
      dget? data "locale" = some lv →
      (releaseOnMessage cfg cbR data).2 = none) ∧
    (∀ data tree locs, releaseChecks cfg data = Except.ok tree →
      dget? data "locale" = none →
      asStrList (dgetD data "locales" (Val.vlist [])) = Except.ok locs →
      (releaseOnMessage cfg cbR data).2 = none) := by
  refine ⟨process_message_escaped _ _ _, process_message_escaped _ _ _,
    process_message_escaped _ _ _, fun d => funsizeOnMessage_snd cfg cbF d, ?_, ?_⟩
  · intro data tree lv hc hg
    simp [releaseOnMessage, hc, dmem, hg, dget_eq_ok _ _ _ hg]
  · intro data tree locs hc hnl hs
    simp [releaseOnMessage, hc, dmem, hnl, hs]

/-- Witness for C4_callback_contained with a callback that always
raises. -/
theorem C4_callback_contained_witness :
    (process_message true (Except.ok payload1)
      (buildOnMessage cfg1 httpOk (fun _ => some PyErr.typeError))).escaped = none ∧
    (funsizeOnMessage cfg1 (fun _ => some PyErr.typeError)
      (FunsizeData.dict upd1)).2 = none ∧
    (releaseOnMessage relCfg (fun _ => some PyErr.typeError) relData1).2 = none := by
  have h := C4_callback_contained cfg1 httpOk (fun _ => some PyErr.typeError)
    (fun _ => some PyErr.typeError) (fun _ => some PyErr.typeError)
    (Except.ok payload1) (Except.ok (FunsizeData.dict upd1)) (Except.ok relData1)
  have h2 := C4_callback_contained relCfg httpOk (fun _ => some PyErr.typeError)
    (fun _ => some PyErr.typeError) (fun _ => some PyErr.typeError)
    (Except.ok payload1) (Except.ok (FunsizeData.dict upd1)) (Except.ok relData1)
  refine ⟨h.1, h.2.2.2.1 (FunsizeData.dict upd1), ?_⟩
  exact h2.2.2.2.2.2 relData1 "release-mozilla-beta" ["en-US", "xx-INVALID"] rfl rfl rfl

/-- C5 (confirmed): a release payload whose locales list carries a valid
and an invalid locale emits exactly one record, for the valid locale, and
the rejection of the invalid locale neither raises out of the normalizer
nor prevents the sibling emission. -/
theorem C5_locale_isolation (cfg : PulseConfig) (cb : ReleaseRecord → Option PyErr)
    (data : Dict) (tree : String) (vb vbi vp vpr vr vv : Val)
    (hchecks : releaseChecks cfg data = Except.ok tree)
    (hnoloc : dget? data "locale" = none)
    (hlocs : dget? data "locales" = some (Val.vlist ["en-US", "xx-INVALID"]))
    (hvalid : is_valid_locale cfg tree "en-US" = Except.ok true)
    (hinvalid : is_valid_locale cfg tree "xx-INVALID" = Except.ok false)
    (hb : dget? data "branch" = some vb)
    (hbi : dget? data "buildid" = some vbi)
    (hp : dget? data "platform" = some vp)
    (hpr : dget? data "product" = some vpr)
    (hr : dget? data "revision" = some vr)
    (hv : dget? data "version" = some vv) :
    (releaseOnMessage cfg cb data).2 = none ∧
    ∃ r, (releaseOnMessage cfg cb data).1 = [r] ∧ r.locale = "en-US" := by
  simp +decide only [releaseOnMessage, hchecks, dmem, hnoloc, Option.isSome_none,
    Bool.false_eq_true, if_false, dgetD, hlocs, asStrList, List.foldl,
    handle_locale, handle_localeE, bind, Except.bind, pure, Except.pure,
    throw, throwThe, MonadExceptOf.throw, asStr, hvalid, hinvalid,
    dget, dget?_dset_ne, dget?_dset_self, dget?_dpop_ne, hb, hbi, hp, hpr, hr, hv,
    Bool.not_true, Bool.not_false, if_true, ite_true, ite_false,
    List.nil_append, List.append_nil]
  exact ⟨trivial, _, rfl, rfl⟩

/-- Witness for C5_locale_isolation on the concrete release fixture. -/
theorem C5_locale_isolation_witness :
    (releaseOnMessage relCfg (fun _ => none) relData1).2 = none ∧
    ∃ r, (releaseOnMessage relCfg (fun _ => none) relData1).1 = [r] ∧
      r.locale = "en-US" :=
  C5_locale_isolation relCfg (fun _ => none) relData1 "release-mozilla-beta"
    (Val.vstr "mozilla-beta") (Val.vstr "201701") (Val.vstr "win64")
    (Val.vstr "Firefox") (Val.vstr "beefcafe") (Val.vstr "55.0b3")
    rfl rfl rfl rfl rfl rfl rfl rfl rfl rfl rfl

/-- C6 (confirmed): a funsize payload that is a single update dict is
processed exactly as its one-element list form — same validation, same
records, same callback invocations — and a valid element yields exactly
one record. -/
theorem C6_dict_singleton_equiv (cfg : PulseConfig)
    (cb : UpdateRecord → Option PyErr) (u : Dict) :
    funsizeOnMessage cfg cb (FunsizeData.dict u) =
      funsizeOnMessage cfg cb (FunsizeData.list [u]) ∧
    (∀ r, funsizeUpdateE cfg u = Except.ok r →
      (funsizeOnMessage cfg cb (FunsizeData.dict u)).1 = [r]) := by
  refine ⟨rfl, ?_⟩
  intro r hr
  simp [funsizeOnMessage, hr]

/-- Witness for C6_dict_singleton_equiv on the concrete update fixture. -/
theorem C6_dict_singleton_equiv_witness :
    funsizeOnMessage cfg1 (fun _ => none) (FunsizeData.dict upd1) =
      funsizeOnMessage cfg1 (fun _ => none) (FunsizeData.list [upd1]) ∧
    (funsizeOnMessage cfg1 (fun _ => none) (FunsizeData.dict upd1)).1 = [updRec1] := by
  have h := C6_dict_singleton_equiv cfg1 (fun _ => none) upd1
  exact ⟨h.1, h.2 updRec1 rfl⟩

/-- C7 (corrected): as stated, the claim fails — the two records do carry
build_url equal to the payload buildurl for en-US and null otherwise, but
not every other field is computed identically: the locale field (and the
stored raw payload) differ between the two records. -/
theorem C7_counterexample :
    (normalizedBuildOnMessage cfg1 httpOk payload1).toOption.map
      (fun r => r.build_url) = some (Val.vstr "http://x/build") ∧
    (normalizedBuildOnMessage cfg1 httpOk payloadDe).toOption.map
      (fun r => r.build_url) = some Val.vnone ∧
    (normalizedBuildOnMessage cfg1 httpOk payload1).toOption.map
      (fun r => r.locale) ≠
      (normalizedBuildOnMessage cfg1 httpOk payloadDe).toOption.map
        (fun r => r.locale) := by
  refine ⟨rfl, rfl, ?_⟩
  decide

/-- C7 (amended): for a Build-Completed payload passing every check, the
emitted record carries build_url equal to the payload buildurl when the
locale entry is en-US and null for the locale de, and the two records
agree on every field other than build_url, locale and raw_json. -/
theorem C7_build_url_reference_locale (cfg : PulseConfig)
    (http : Request → HttpResponse) (data : Dict)
    (tree product platform : String) (tagsL : List String)
    (vbid vburl vstatus vtpu vversion vlong : Val) (revS : String)
    (htree : dget? data "tree" = some (Val.vstr tree))
    (hvt : is_valid_tree cfg tree = true)
    (hprod : dget? data "product" = some (Val.vstr product))
    (hvp : is_valid_product cfg tree (strLower product) = Except.ok true)
    (hplat : dget? data "platform" = some (Val.vstr platform))
    (hvpl : is_valid_platform cfg tree platform = Except.ok true)
    (htags : dget? data "tags" = some (Val.vlist tagsL))
    (hvtg : has_valid_tags cfg tree tagsL = Except.ok true)
    (hvlocEn : is_valid_locale cfg tree "en-US" = Except.ok true)
    (hvlocDe : is_valid_locale cfg tree "de" = Except.ok true)
    (hbid : dget? data "buildid" = some vbid)
    (hburl : dget? data "buildurl" = some vburl)
    (hrev : dget? data "revision" = some (Val.vstr revS))
    (hres : get_long_revision http tree revS = Except.ok vlong)
    (hstatus : dget? data "status" = some vstatus)
    (htpu : dget? data "test_packages_url" = some vtpu)
    (hver : dget? data "version" = some vversion) :
    ∃ rEn rDe,
      normalizedBuildOnMessage cfg http (dset data "locale" (Val.vstr "en-US")) =
        Except.ok rEn ∧
      normalizedBuildOnMessage cfg http (dset data "locale" (Val.vstr "de")) =
        Except.ok rDe ∧
      rEn.build_url = vburl ∧ rDe.build_url = Val.vnone ∧
      rEn.locale = "en-US" ∧ rDe.locale = "de" ∧
      rEn.branch = rDe.branch ∧ rEn.buildid = rDe.buildid ∧
      rEn.build_number = rDe.build_number ∧ rEn.platform = rDe.platform ∧
      rEn.product = rDe.product ∧ rEn.repository = rDe.repository ∧
      rEn.revision = rDe.revision ∧ rEn.status = rDe.status ∧
      rEn.tags = rDe.tags ∧ rEn.test_packages_url = rDe.test_packages_url ∧
      rEn.tree = rDe.tree ∧ rEn.version = rDe.version ∧
      rEn.allowed_testruns = rDe.allowed_testruns := by
  have hEn := nbom_compute cfg http data tree product platform "en-US" tagsL
    vbid vburl vstatus vtpu vversion vlong revS htree hvt hprod hvp hplat hvpl
    htags hvtg hvlocEn hbid hburl hrev hres hstatus htpu hver
  have hDe := nbom_compute cfg http data tree product platform "de" tagsL
    vbid vburl vstatus vtpu vversion vlong revS htree hvt hprod hvp hplat hvpl
    htags hvtg hvlocDe hbid hburl hrev hres hstatus htpu hver
  exact ⟨_, _, hEn, hDe, rfl, rfl, rfl, rfl, rfl, rfl, rfl, rfl, rfl, rfl,
    rfl, rfl, rfl, rfl, rfl, rfl, rfl⟩

/-- Witness for C7_build_url_reference_locale on the concrete build
fixture. -/
theorem C7_build_url_reference_locale_witness :
    (normalizedBuildOnMessage cfg1 httpOk
      (dset payload1 "locale" (Val.vstr "en-US"))).toOption.map
      (fun r => r.build_url) = some (Val.vstr "http://x/build") ∧
    (normalizedBuildOnMessage cfg1 httpOk
      (dset payload1 "locale" (Val.vstr "de"))).toOption.map
      (fun r => r.build_url) = some Val.vnone := by
  obtain ⟨rEn, rDe, hEn, hDe, hb1, hb2, hrest⟩ :=
    C7_build_url_reference_locale cfg1 httpOk payload1 "mozilla-central" "Firefox"
      "linux64" [] (Val.vstr "20170101") (Val.vstr "http://x/build") (Val.vint 0)
      (Val.vstr "http://x/tp") (Val.vstr "55.0") (Val.vstr "abc123full") "abc123"
      rfl rfl rfl rfl rfl rfl rfl rfl rfl rfl rfl rfl rfl rfl rfl rfl rfl
  constructor
  · rw [hEn]
    exact congrArg some hb1
  · rw [hDe]
    exact congrArg some hb2

/-- C8 (confirmed): is_valid_tree accepts every tree name when the tree
mapping is empty, and otherwise accepts exactly the trees present in the
mapping. -/
theorem C8_is_valid_tree_wildcard (cfg : PulseConfig) (tree : String) :
    is_valid_tree cfg tree = true ↔
      (cfg.trees = [] ∨ tree ∈ cfg.trees.map Prod.fst) := by
  simp [is_valid_tree, List.isEmpty_iff, List.map_eq_nil_iff]

/-- C9 (confirmed): get_long_revision builds the releases-prefixed
repository path for every branch except mozilla-central, bounds the
request at 60 seconds, propagates a non-success status or malformed JSON
as an error, and on success returns the node field of the response. -/
theorem C9_get_long_revision_contract (http : Request → HttpResponse)
    (repo revision : String) :
    (revisionRequest repo revision).timeout = 60 ∧
    (repo ≠ "mozilla-central" →
      (revisionRequest repo revision).url =
        "https://hg.mozilla.org/releases/" ++ repo ++ "/json-rev/" ++ revision) ∧
    ((revisionRequest "mozilla-central" revision).url =
      "https://hg.mozilla.org/mozilla-central/json-rev/" ++ revision) ∧
    (400 ≤ (http (revisionRequest repo revision)).status →
      get_long_revision http repo revision =
        Except.error (PyErr.httpError (http (revisionRequest repo revision)).status)) ∧
    ((http (revisionRequest repo revision)).status < 400 →
      ∀ e, (http (revisionRequest repo revision)).jsonBody = Except.error e →
        get_long_revision http repo revision = Except.error e) ∧
    ((http (revisionRequest repo revision)).status < 400 →
      ∀ j v, (http (revisionRequest repo revision)).jsonBody = Except.ok j →
        dget? j "node" = some v →
        get_long_revision http repo revision = Except.ok v) := by
  refine ⟨rfl, ?_, ?_, ?_, ?_, ?_⟩
  · intro h
    have hlit : "https://hg.mozilla.org/" ++ "releases/" =
      "https://hg.mozilla.org/releases/" := rfl
    simp only [revisionRequest, if_pos h]
    rw [← String.append_assoc, hlit]
  · simp [revisionRequest]
  · intro h
    simp [get_long_revision, raise_for_status, bind, Except.bind, if_pos h]
  · intro h e he
    simp [get_long_revision, raise_for_status, bind, Except.bind,
      if_neg (Nat.not_le.mpr h), he]
  · intro h j v hj hv
    simp [get_long_revision, raise_for_status, bind, Except.bind,
      if_neg (Nat.not_le.mpr h), hj, dget_eq_ok _ _ _ hv]

/-- Witness for C9_get_long_revision_contract on concrete HTTP oracles. -/
theorem C9_get_long_revision_contract_witness :
    (revisionRequest "mozilla-beta" "59f3").timeout = 60 ∧
    (revisionRequest "mozilla-beta" "59f3").url =
      "https://hg.mozilla.org/releases/" ++ "mozilla-beta" ++ "/json-rev/" ++ "59f3" ∧
    get_long_revision httpOk "mozilla-beta" "59f3" =
      Except.ok (Val.vstr "abc123full") ∧
    get_long_revision httpErr "mozilla-beta" "59f3" =
      Except.error (PyErr.httpError 404) := by
  have h := C9_get_long_revision_contract httpOk "mozilla-beta" "59f3"
  have h2 := C9_get_long_revision_contract httpErr "mozilla-beta" "59f3"
  refine ⟨h.1, h.2.1 (by decide), ?_, ?_⟩
  · exact h.2.2.2.2.2 (by decide) [("node", Val.vstr "abc123full")]
      (Val.vstr "abc123full") rfl rfl
  · exact h2.2.2.2.1 (by decide)

/-- C10 (confirmed): a release payload passing the tree, product and
platform checks that carries neither a locale nor a locales entry yields
zero records and raises nothing — the absent locales list defaults to
empty and the per-locale loop is skipped. -/
theorem C10_missing_locales_no_records (cfg : PulseConfig)
    (cb : ReleaseRecord → Option PyErr) (data : Dict) (tree : String)
    (hchecks : releaseChecks cfg data = Except.ok tree)
    (hnoloc : dget? data "locale" = none)
    (hnolocs : dget? data "locales" = none) :
    releaseOnMessage cfg cb data = ([], none) := by
  simp +decide only [releaseOnMessage, hchecks, dmem, hnoloc, Option.isSome_none,
    Bool.false_eq_true, if_false, dgetD, hnolocs, asStrList, List.foldl]

/-- Witness for C10_missing_locales_no_records on the concrete release
fixture without locales. -/
theorem C10_missing_locales_no_records_witness :
    releaseOnMessage relCfg (fun _ => none) relData2 = ([], none) :=
  C10_missing_locales_no_records relCfg (fun _ => none) relData2
    "release-mozilla-beta" rfl rfl rfl

end MozmillCI
